import Mathlib

/-!
# Tunnel: datagram framing, forwarding pumps, shutdown and address resolution

A shallow embedding of `internal/tunnel` (client.go, server.go, config.go) and of
the two `main` functions.  The pumps are loops around blocking I/O; here the
environment of a pump is an explicit script of what its blocking calls return,
and a pump is a function from that script to what it wrote, sent and closed.
-/

set_option autoImplicit false

namespace Tunnel

/-! ## Bytes and the 16-bit big-endian length -/

/-- One octet. -/
abbrev Byte := Fin 256

/-- The Go conversion `uint16(n)`. -/
def uint16 (n : Nat) : Nat := n % 65536

/-- The call `binary.BigEndian.PutUint16(header, v)` on a 2-byte header:
`header[0] = byte(v >> 8)`, `header[1] = byte(v)`. -/
def PutUint16 (v : Nat) : List Byte :=
  [⟨v / 256 % 256, Nat.mod_lt _ (by decide)⟩, ⟨v % 256, Nat.mod_lt _ (by decide)⟩]

/-- The call `binary.BigEndian.Uint16(header)`: `uint16(b[1]) | uint16(b[0])<<8`. -/
def Uint16 (b : List Byte) : Nat :=
  (b.getD 1 0).val + (b.getD 0 0).val * 256

/-- The call `io.ReadFull(stream, p)` with `len(p) = n` on a stream whose unread bytes
are `stream`: the `n` bytes read and the bytes left, or `none` when fewer than `n`
bytes are there. -/
def ReadFull (stream : List Byte) (n : Nat) : Option (List Byte × List Byte) :=
  if n ≤ stream.length then some (stream.take n, stream.drop n) else none

/-- When a socket or stream starts to refuse writes: `none` is never, `some k` is
at its `Write` call number `k` (counted from 0 among the calls still to come). -/
abbrev WriteFault := Option Nat

/-- The outcome of the next `Write` call (`true` = nil error) and the fault as the
calls after it see it. -/
def nextWrite : WriteFault → Bool × WriteFault
  | none => (true, none)
  | some 0 => (false, some 0)
  | some (k + 1) => (true, some k)

/-! ## Pump results -/

/-- The log line a pump prints right before it returns. -/
inductive Exit where
  | readError
  | writeLengthError
  | writePayloadError
  | readLengthError
  | drainError
  | readPayloadError
  | udpWriteError
  deriving DecidableEq, Repr

/-- Where a pump is once its script has been played. -/
inductive Status where
  /-- Still inside a blocking call: nothing more has arrived. -/
  | blocked
  /-- The function has returned, after the given log line. -/
  | returned (why : Exit)
  deriving DecidableEq, Repr

/-- The status after a failed `io.ReadFull`: an error return when the stream has
ended (end of stream or read error), a blocked read when more bytes may come. -/
def readFailed (ended : Bool) (why : Exit) : Status :=
  if ended then .returned why else .blocked

/-- One result of `udpConn.ReadFromUDP(buf)`. -/
inductive UDPRead where
  /-- The call returned `n = payload.length`, the bytes themselves and a nil error. -/
  | datagram (payload : List Byte)
  /-- The call returned a non-nil error. -/
  | failed
  deriving DecidableEq, Repr

/-- What a datagram->stream loop did: the bytes its `stream.Write` calls put on the
sub-channel, in order, and where it is. -/
structure Written where
  bytes : List Byte
  status : Status
  deriving DecidableEq, Repr

/-- What a stream->datagram loop did: the datagrams its `udpConn.Write` calls sent,
in order, and where it is. -/
structure Sent where
  datagrams : List (List Byte)
  status : Status
  deriving DecidableEq, Repr

/-- Put bytes written earlier in front of a later result. -/
def Written.after (pre : List Byte) (w : Written) : Written :=
  ⟨pre ++ w.bytes, w.status⟩

/-- Put a datagram sent earlier in front of a later result. -/
def Sent.after (d : List Byte) (s : Sent) : Sent :=
  ⟨d :: s.datagrams, s.status⟩

/-! ## The datagram -> stream loop (client.go 123-149, server.go 130-153) -/

/-- The `for` loop of `udpToStream` / `udpToStreamServer`.  `writes` says when
`stream.Write` starts to fail, `reads` scripts the results of `ReadFromUDP`. -/
def udpToStreamLoop : WriteFault → List UDPRead → Written
  | _, [] => ⟨[], .blocked⟩
  | _, .failed :: _ => ⟨[], .returned .readError⟩
  | writes, .datagram payload :: rest =>
    let n := payload.length
    if n = 0 then udpToStreamLoop writes rest
    else if n > 0xFFFF then udpToStreamLoop writes rest
    else
      let header := PutUint16 (uint16 n)
      match nextWrite writes with
      | (false, _) => ⟨[], .returned .writeLengthError⟩
      | (true, writes1) =>
        match nextWrite writes1 with
        | (false, _) => ⟨header, .returned .writePayloadError⟩
        | (true, writes2) => (udpToStreamLoop writes2 rest).after (header ++ payload)

/-! ## The stream -> datagram loop (client.go 160-189, server.go 162-191) -/

/-- The `for` loop of `streamToUDP` / `streamToUDPServer` with `bufLen = len(buf)`.
`ended` says whether the sub-channel ends after `stream` (end of stream or error)
or stays open; `udpWrites` says when `udpConn.Write` starts to fail.  Every
iteration reads at least the 2 header bytes, so `fuel > stream.length` is
enough; `none` means the fuel ran out. -/
def streamToUDPLoop (bufLen : Nat) (ended : Bool) : Nat → WriteFault → List Byte → Option Sent
  | 0, _, _ => none
  | fuel + 1, udpWrites, stream =>
    match ReadFull stream 2 with
    | none => some ⟨[], readFailed ended .readLengthError⟩
    | some (header, stream1) =>
      let length := Uint16 header
      if length = 0 then streamToUDPLoop bufLen ended fuel udpWrites stream1
      else if length > bufLen then
        match ReadFull stream1 bufLen with
        | none => some ⟨[], readFailed ended .drainError⟩
        | some (_, stream2) => streamToUDPLoop bufLen ended fuel udpWrites stream2
      else
        match ReadFull stream1 length with
        | none => some ⟨[], readFailed ended .readPayloadError⟩
        | some (payload, stream2) =>
          match nextWrite udpWrites with
          | (false, _) => some ⟨[], .returned .udpWriteError⟩
          | (true, udpWrites1) =>
            (streamToUDPLoop bufLen ended fuel udpWrites1 stream2).map (Sent.after payload)

/-- The buffer both stream->datagram pumps allocate: `make([]byte, 65535)`. -/
def bufLen : Nat := 65535

/-! ## Endpoints -/

/-- A resolved UDP address (`*net.UDPAddr`). -/
structure UDPAddr where
  host : String
  port : Nat
  deriving DecidableEq, Repr

/-- An open socket, session or connection; `closeErr` is what its `Close()` returns
(`true` = a non-nil error). -/
structure Handle where
  closeErr : Bool
  deriving DecidableEq, Repr

/-- The struct `Client` of client.go (the TLS configuration plays no part in what
follows and is left out); a `nil` field is `none`. -/
structure Client where
  serverAddr : String
  conn : Option Handle
  session : Option Handle
  wgLocalAddr : UDPAddr
  wgConn : Option Handle
  deriving DecidableEq, Repr

/-- The struct `Server` of server.go (without the TLS configuration). -/
structure Server where
  addr : String
  wireGuardRemote : String
  listener : Option Handle
  deriving DecidableEq, Repr

/-- A run of one pump function: what its loop did, and whether the function itself
has called `stream.Close()` by the time it returned. -/
structure Run (α : Type) where
  loop : α
  streamClosed : Bool
  deriving DecidableEq, Repr

/-- Whether the function has returned. -/
def Status.isReturned : Status → Bool
  | .blocked => false
  | .returned _ => true

/-- The method `udpToStream` of client.go: `defer stream.Close()`, then the loop; the close
so deferred runs when the function returns. -/
def Client.udpToStream (_c : Client) (writes : WriteFault) (reads : List UDPRead) :
    Run Written :=
  let w := udpToStreamLoop writes reads
  ⟨w, w.status.isReturned⟩

/-- The method `streamToUDP` of client.go: `defer stream.Close()`, then the loop over
a 65535-byte buffer. -/
def Client.streamToUDP (_c : Client) (ended : Bool) (udpWrites : WriteFault)
    (stream : List Byte) : Option (Run Sent) :=
  (streamToUDPLoop bufLen ended (stream.length + 1) udpWrites stream).map
    fun s => ⟨s, s.status.isReturned⟩

/-- The function `udpToStreamServer` of server.go: the loop, and no close of its own. -/
def udpToStreamServer (writes : WriteFault) (reads : List UDPRead) : Run Written :=
  ⟨udpToStreamLoop writes reads, false⟩

/-- The function `streamToUDPServer` of server.go: the loop over a 65535-byte buffer,
and no close of its own. -/
def streamToUDPServer (ended : Bool) (udpWrites : WriteFault) (stream : List Byte) :
    Option (Run Sent) :=
  (streamToUDPLoop bufLen ended (stream.length + 1) udpWrites stream).map
    fun s => ⟨s, false⟩

/-- A `*net.UDPConn` as far as `Write` goes: `net.DialUDP` gives it the remote
address it sends to, `net.ListenUDP` gives it none. -/
structure UDPConn where
  remote : Option UDPAddr
  deriving DecidableEq, Repr

/-- The faults `udpConn.Write` shows on a socket: without a remote address every call
fails (there is no destination to send to), with one the calls fail when the
network makes them. -/
def UDPConn.writeFault (u : UDPConn) (network : WriteFault) : WriteFault :=
  match u.remote with
  | none => some 0
  | some _ => network

/-- What a call of `Client.Start` leaves: the receiver with the fields it has set,
whether it returned an error, and the two goroutines when it has started them. -/
structure Started where
  client : Client
  failed : Bool
  udpToStream : Option (Run Written)
  streamToUDP : Option (Run Sent)
  deriving DecidableEq, Repr

/-- The method `Start` of client.go. `tlsDial`, `yamuxClient`, `sessionOpen` and
`listenUDP` are what `tls.Dial`, `yamux.Client`, `c.session.Open` and
`net.ListenUDP` return (`none`, `false`: a non-nil error); both pumps get the socket
`net.ListenUDP` returned. -/
def Client.Start (c : Client) (tlsDial yamuxClient : Option Handle) (sessionOpen : Bool)
    (listenUDP : Option Handle) (writes : WriteFault) (reads : List UDPRead)
    (ended : Bool) (network : WriteFault) (stream : List Byte) : Option Started :=
  match tlsDial with
  | none => some ⟨c, true, none, none⟩
  | some conn =>
    let c1 := { c with conn := some conn }
    match yamuxClient with
    | none => some ⟨c1, true, none, none⟩
    | some session =>
      let c2 := { c1 with session := some session }
      if sessionOpen = false then some ⟨c2, true, none, none⟩
      else
        match listenUDP with
        | none => some ⟨c2, true, none, none⟩
        | some wgConn =>
          let c3 := { c2 with wgConn := some wgConn }
          let socket : UDPConn := ⟨none⟩
          (c3.streamToUDP ended (socket.writeFault network) stream).map fun down =>
            ⟨c3, false, some (c3.udpToStream writes reads), some down⟩

/-- How one call of `handleWireGuardStream` went. -/
inductive Handled where
  /-- `net.ResolveUDPAddr` failed: logged, returned, deferred `stream.Close()` ran. -/
  | resolveFailed
  /-- `net.DialUDP` failed: logged, returned, deferred `stream.Close()` ran. -/
  | dialFailed
  /-- Both pumps were started: `up` is the call of `udpToStreamServer` (line 121),
  `down` the goroutine running `streamToUDPServer` (line 120). `streamClosed` and
  `wgConnClosed` say whether the deferred closes of lines 104 and 117 have run. -/
  | bridged (up : Run Written) (down : Run Sent) (streamClosed wgConnClosed : Bool)
  deriving DecidableEq, Repr

/-- The method `handleWireGuardStream` of server.go. The function returns, and the
closes it deferred run, exactly when its synchronous call of `udpToStreamServer`
returns. -/
def Server.handleWireGuardStream (s : Server) (ResolveUDPAddr : String → Option UDPAddr)
    (dialOk : Bool) (writes : WriteFault) (reads : List UDPRead)
    (ended : Bool) (udpWrites : WriteFault) (stream : List Byte) : Option Handled :=
  match ResolveUDPAddr s.wireGuardRemote with
  | none => some .resolveFailed
  | some _ =>
    if dialOk = false then some .dialFailed
    else
      (streamToUDPServer ended udpWrites stream).map fun down =>
        let up := udpToStreamServer writes reads
        .bridged up down up.loop.status.isReturned up.loop.status.isReturned

/-! ## Shutdown (client.go 104-115) -/

/-- The three things `Client.Close` closes. -/
inductive Resource where
  | wgConn
  | session
  | conn
  deriving DecidableEq, Repr

/-- The method `Close` of client.go: the `Close()` calls it makes, in order, and
whether it returns a non-nil error. -/
def Client.Close (c : Client) : List Resource × Bool :=
  let calls1 := match c.wgConn with
    | some _ => [Resource.wgConn]
    | none => []
  let calls2 := match c.session with
    | some _ => calls1 ++ [Resource.session]
    | none => calls1
  match c.conn with
  | some h => (calls2 ++ [Resource.conn], h.closeErr)
  | none => (calls2, false)

/-! ## Configuration (config.go) and construction -/

/-- The struct `ServerConfig` of config.go. -/
structure ServerConfig where
  ListenAddr : String
  TLSCertFile : String
  TLSKeyFile : String
  WireGuardRemote : String
  deriving DecidableEq, Repr

/-- The struct `ClientConfig` of config.go. -/
structure ClientConfig where
  ServerAddr : String
  CACertFile : String
  WireGuardLocal : String
  deriving DecidableEq, Repr

/-- The library calls the constructors make; `none` or `false` is a non-nil error.
The YAML decoders return the struct `yaml.Unmarshal` fills, a key that is absent
left at the empty string. -/
structure Host where
  ReadFile : String → Option String
  UnmarshalServer : String → Option ServerConfig
  UnmarshalClient : String → Option ClientConfig
  LoadX509KeyPair : String → String → Bool
  ResolveUDPAddr : String → Option UDPAddr

/-- The function `LoadServerConfig` of config.go. -/
def LoadServerConfig (h : Host) (path : String) : Option ServerConfig :=
  match h.ReadFile path with
  | none => none
  | some data =>
    match h.UnmarshalServer data with
    | none => none
    | some cfg =>
      let cfg1 := if cfg.ListenAddr = "" then { cfg with ListenAddr := ":8443" } else cfg
      let cfg2 := if cfg1.WireGuardRemote = "" then
        { cfg1 with WireGuardRemote := "127.0.0.1:51820" } else cfg1
      some cfg2

/-- The function `LoadClientConfig` of config.go. -/
def LoadClientConfig (h : Host) (path : String) : Option ClientConfig :=
  match h.ReadFile path with
  | none => none
  | some data =>
    match h.UnmarshalClient data with
    | none => none
    | some cfg =>
      if cfg.ServerAddr = "" then none
      else
        let cfg1 := if cfg.WireGuardLocal = "" then
          { cfg with WireGuardLocal := "127.0.0.1:51820" } else cfg
        some cfg1

/-- The function `NewServer` of server.go. -/
def NewServer (h : Host) (configPath listenAddr : String) : Option Server :=
  match LoadServerConfig h configPath with
  | none => none
  | some cfg =>
    let cfg1 := if listenAddr ≠ "" then { cfg with ListenAddr := listenAddr } else cfg
    if h.LoadX509KeyPair cfg1.TLSCertFile cfg1.TLSKeyFile = false then none
    else some { addr := cfg1.ListenAddr, wireGuardRemote := cfg1.WireGuardRemote,
                listener := none }

/-- The function `NewClient` of client.go (building the certificate pool cannot fail
and touches no address). -/
def NewClient (h : Host) (configPath serverAddrFlag : String) : Option Client :=
  match LoadClientConfig h configPath with
  | none => none
  | some cfg =>
    let cfg1 := if serverAddrFlag ≠ "" then { cfg with ServerAddr := serverAddrFlag } else cfg
    match h.ResolveUDPAddr cfg1.WireGuardLocal with
    | none => none
    | some wgAddr =>
      some { serverAddr := cfg1.ServerAddr, conn := none, session := none,
             wgLocalAddr := wgAddr, wgConn := none }

/-- The value of a string flag after `flag.Parse()`: what the command line gave for
it, or the default the flag was declared with. -/
def flagString (given : Option String) (dflt : String) : String :=
  given.getD dflt

/-- The start of `main` in cmd/client/main.go, up to the call of `NewClient`;
`server` and `config` are what the command line gives for `-server` and `-config`.
`Start` then dials the `serverAddr` of the client returned. -/
def cmd.client.main (h : Host) (server config : Option String) : Option Client :=
  let serverAddr := flagString server "server.example.com:8443"
  let configPath := flagString config "tunnel-client.yaml"
  NewClient h configPath serverAddr

/-- The start of `main` in cmd/server/main.go, up to the call of `NewServer`;
`listen` and `config` are what the command line gives for `-listen` and `-config`.
`Start` then listens on the `addr` of the server returned. -/
def cmd.server.main (h : Host) (listen config : Option String) : Option Server :=
  let listenAddr := flagString listen ":8443"
  let configPath := flagString config "tunnel-server.yaml"
  NewServer h configPath listenAddr

/-! ## Frames -/

/-- The bytes one pass of the datagram->stream loop writes for a payload it forwards:
the header `PutUint16(header, uint16(n))`, then `buf[:n]`. -/
def frame (payload : List Byte) : List Byte :=
  PutUint16 (uint16 payload.length) ++ payload

/-- Put datagrams sent earlier in front of a later result. -/
def Sent.afterAll (ds : List (List Byte)) (s : Sent) : Sent :=
  ⟨ds ++ s.datagrams, s.status⟩

/-- The frame of the wire format in the specification's words: a 2-byte unsigned
big-endian length `[len_hi, len_lo]`, then the payload verbatim. -/
def wireFrame (payload : List Byte) : List Byte :=
  [Fin.ofNat (payload.length / 256), Fin.ofNat (payload.length % 256)] ++ payload

/-- How many of `n` UDP sends in a row go through under a write fault. -/
def accepted : WriteFault → Nat → Nat
  | none, n => n
  | some k, n => min k n

/-- The write fault as the calls after `n` successful ones see it. -/
def faultAfter : WriteFault → Nat → WriteFault
  | none, _ => none
  | some k, n => some (k - n)

/-- A client as `NewClient` returns it, for the concrete instances below. -/
def sampleClient : Client :=
  { serverAddr := "server.example.com:8443", conn := none, session := none,
    wgLocalAddr := ⟨"127.0.0.1", 51820⟩, wgConn := none }

/-- A server as `NewServer` returns it, for the concrete instances below. -/
def sampleServer : Server :=
  { addr := ":8443", wireGuardRemote := "127.0.0.1:51820", listener := none }

/-- A host for the concrete instances below: every file reads, the server's YAML
names only its certificate files, the client's YAML only `server_addr`, the key
pair loads and every UDP address resolves. -/
def sampleHost : Host :=
  { ReadFile := fun _ => some "yaml"
    UnmarshalServer := fun _ => some ⟨"", "cert.pem", "key.pem", ""⟩
    UnmarshalClient := fun _ => some ⟨"vpn.example.org:443", "", ""⟩
    LoadX509KeyPair := fun _ _ => true
    ResolveUDPAddr := fun _ => some ⟨"127.0.0.1", 51820⟩ }

/-- Whether the field of the client that holds the resource is set (not `nil`). -/
def Client.isSet (c : Client) : Resource → Bool
  | .wgConn => c.wgConn.isSome
  | .session => c.session.isSome
  | .conn => c.conn.isSome

/-! ## Lemmas on the length codec and `ReadFull` -/

theorem Uint16_le (b : List Byte) : Uint16 b ≤ 65535 := by
  unfold Uint16
  have h0 := (b.getD 0 0).isLt
  have h1 := (b.getD 1 0).isLt
  omega

theorem Uint16_PutUint16 (n : Nat) (h : n ≤ 65535) : Uint16 (PutUint16 (uint16 n)) = n := by
  simp only [Uint16, PutUint16, uint16, List.getD_cons_zero, List.getD_cons_succ]
  omega

theorem ReadFull_append (p rest : List Byte) :
    ReadFull (p ++ rest) p.length = some (p, rest) := by
  simp [ReadFull]

theorem ReadFull_header (v : Nat) (rest : List Byte) :
    ReadFull (PutUint16 v ++ rest) 2 = some (PutUint16 v, rest) :=
  ReadFull_append (PutUint16 v) rest

theorem ReadFull_short (s : List Byte) (n : Nat) (h : s.length < n) : ReadFull s n = none := by
  simp [ReadFull, h]

theorem ReadFull_length (s : List Byte) (n : Nat) (a b : List Byte)
    (h : ReadFull s n = some (a, b)) : a.length = n ∧ b.length + n = s.length := by
  unfold ReadFull at h
  split at h
  · simp only [Option.some.injEq, Prod.mk.injEq] at h
    obtain ⟨rfl, rfl⟩ := h
    simp only [List.length_take, List.length_drop]
    omega
  · exact absurd h (by simp)

/-! ## Lemmas on the stream -> datagram loop -/

/-- One pass over the frame of a non-empty payload that fits the buffer: the payload
is sent and the loop goes on right behind the frame. -/
theorem loop_frame (B : Nat) (ended : Bool) (f : Nat) (p rest : List Byte)
    (h0 : p ≠ []) (h1 : p.length ≤ 65535) (hB : p.length ≤ B) :
    streamToUDPLoop B ended (f + 1) none (frame p ++ rest)
      = (streamToUDPLoop B ended f none rest).map (Sent.after p) := by
  have hpos : p.length ≠ 0 := fun h => h0 (List.length_eq_zero.mp h)
  rw [streamToUDPLoop, frame, List.append_assoc, ReadFull_header]
  simp only [Uint16_PutUint16 p.length h1, hpos, if_false, gt_iff_lt, Nat.not_lt.mpr hB,
    ReadFull_append, nextWrite]

/-- One pass over the frame of the empty payload: nothing is sent and the loop goes
on right behind the frame. -/
theorem loop_frame_nil (B : Nat) (ended : Bool) (f : Nat) (w : WriteFault) (rest : List Byte) :
    streamToUDPLoop B ended (f + 1) w (frame [] ++ rest)
      = streamToUDPLoop B ended f w rest := by
  rw [streamToUDPLoop, frame, List.append_assoc, ReadFull_header]
  simp [Uint16_PutUint16]

/-- Fuel above the number of unread bytes is enough, and more of it changes nothing. -/
theorem loop_fuel (B : Nat) (ended : Bool) :
    ∀ (f g : Nat) (w : WriteFault) (s : List Byte), s.length < f → s.length < g →
      streamToUDPLoop B ended f w s = streamToUDPLoop B ended g w s := by
  intro f
  induction f with
  | zero => intro g w s hf; omega
  | succ f ih =>
    intro g w s hf hg
    cases g with
    | zero => omega
    | succ g =>
      rw [streamToUDPLoop, streamToUDPLoop]
      cases h2 : ReadFull s 2 with
      | none => rfl
      | some r =>
        obtain ⟨header, s1⟩ := r
        have l1 := (ReadFull_length s 2 header s1 h2).2
        simp only
        split
        · exact ih g w s1 (by omega) (by omega)
        · split
          · cases hB : ReadFull s1 B with
            | none => rfl
            | some r2 =>
              obtain ⟨junk, s2⟩ := r2
              have l2 := (ReadFull_length s1 B junk s2 hB).2
              exact ih g w s2 (by omega) (by omega)
          · cases hL : ReadFull s1 (Uint16 header) with
            | none => rfl
            | some r2 =>
              obtain ⟨payload, s2⟩ := r2
              have l2 := (ReadFull_length s1 _ payload s2 hL).2
              simp only
              cases hw : nextWrite w with
              | mk ok w1 =>
                cases ok with
                | false => rfl
                | true =>
                  simp only
                  rw [ih g w1 s2 (by omega) (by omega)]

/-- With fuel above the number of unread bytes the loop gives a result. -/
theorem loop_isSome (B : Nat) (ended : Bool) :
    ∀ (f : Nat) (w : WriteFault) (s : List Byte), s.length < f →
      (streamToUDPLoop B ended f w s).isSome = true := by
  intro f
  induction f with
  | zero => intro w s hf; omega
  | succ f ih =>
    intro w s hf
    rw [streamToUDPLoop]
    cases h2 : ReadFull s 2 with
    | none => rfl
    | some r =>
      obtain ⟨header, s1⟩ := r
      have l1 := (ReadFull_length s 2 header s1 h2).2
      simp only
      split
      · exact ih w s1 (by omega)
      · split
        · cases hB : ReadFull s1 B with
          | none => rfl
          | some r2 =>
            obtain ⟨junk, s2⟩ := r2
            have l2 := (ReadFull_length s1 B junk s2 hB).2
            exact ih w s2 (by omega)
        · cases hL : ReadFull s1 (Uint16 header) with
          | none => rfl
          | some r2 =>
            obtain ⟨payload, s2⟩ := r2
            have l2 := (ReadFull_length s1 _ payload s2 hL).2
            simp only
            cases hw : nextWrite w with
            | mk ok w1 =>
              cases ok with
              | false => rfl
              | true =>
                simp only [Option.isSome_map']
                exact ih w1 s2 (by omega)

theorem Sent.afterAll_nil (s : Sent) : Sent.afterAll [] s = s := rfl

theorem Sent.after_afterAll (p : List Byte) (ds : List (List Byte)) (s : Sent) :
    Sent.after p (Sent.afterAll ds s) = Sent.afterAll (p :: ds) s := rfl

theorem frame_length (p : List Byte) : (frame p).length = p.length + 2 := by
  simp [frame, PutUint16]

theorem frames_length_ge (ps : List (List Byte)) : ps.length ≤ (ps.flatMap frame).length := by
  induction ps with
  | nil => simp
  | cons p ps ih =>
    simp only [List.flatMap_cons, List.length_append, List.length_cons, frame_length]
    omega

/-- A run of frames, each payload fitting the buffer: the non-empty payloads are
sent in order and the loop goes on right behind the last frame. -/
theorem loop_frames (B : Nat) (ended : Bool) (ps : List (List Byte))
    (hps : ∀ p ∈ ps, p.length ≤ 65535 ∧ p.length ≤ B) (rest : List Byte) (f : Nat) :
    streamToUDPLoop B ended (f + ps.length) none (ps.flatMap frame ++ rest)
      = (streamToUDPLoop B ended f none rest).map
          (Sent.afterAll (ps.filter fun p => p ≠ [])) := by
  induction ps with
  | nil =>
    simp only [List.length_nil, Nat.add_zero, List.flatMap_nil, List.nil_append, List.filter_nil]
    cases streamToUDPLoop B ended f none rest <;> rfl
  | cons p ps ih =>
    have hp := hps p (List.mem_cons_self p ps)
    have ih1 := ih fun q hq => hps q (List.mem_cons_of_mem p hq)
    simp only [List.flatMap_cons, List.length_cons, List.append_assoc]
    rw [← Nat.add_assoc]
    by_cases h0 : p = []
    · subst h0
      rw [loop_frame_nil, ih1]
      simp
    · rw [loop_frame B ended _ p _ h0 hp.1 hp.2, ih1, Option.map_map]
      simp only [List.filter_cons, h0, ne_eq, not_false_eq_true, decide_True, if_true]
      rfl

/-- The same with the fuel the pump functions start from. -/
theorem run_frames (ended : Bool) (ps : List (List Byte))
    (hps : ∀ p ∈ ps, p.length ≤ 65535) (rest : List Byte) :
    streamToUDPLoop bufLen ended ((ps.flatMap frame ++ rest).length + 1) none
        (ps.flatMap frame ++ rest)
      = (streamToUDPLoop bufLen ended (rest.length + 1) none rest).map
          (Sent.afterAll (ps.filter fun p => p ≠ [])) := by
  have hlen := frames_length_ge ps
  have hfuel : (ps.flatMap frame ++ rest).length + 1
      = ((ps.flatMap frame ++ rest).length + 1 - ps.length) + ps.length := by
    simp only [List.length_append]
    omega
  rw [hfuel, loop_frames bufLen ended ps (fun p hp => ⟨hps p hp, hps p hp⟩) rest]
  rw [loop_fuel bufLen ended _ (rest.length + 1) none rest
    (by simp only [List.length_append]; omega) (by omega)]

/-- At the end of the stream the header read fails. -/
theorem run_nil (B : Nat) (ended : Bool) (w : WriteFault) :
    streamToUDPLoop B ended 1 w [] = some ⟨[], readFailed ended .readLengthError⟩ := rfl

/-- A lone header byte: the header read fails. -/
theorem run_one (B : Nat) (ended : Bool) (f : Nat) (w : WriteFault) (b : Byte) :
    streamToUDPLoop B ended (f + 1) w [b] = some ⟨[], readFailed ended .readLengthError⟩ := rfl

/-- A header followed by fewer payload bytes than it declares: the payload read
fails. -/
theorem run_short (ended : Bool) (f : Nat) (w : WriteFault) (h0 h1 : Byte) (q : List Byte)
    (hq : q.length < Uint16 [h0, h1]) :
    streamToUDPLoop bufLen ended (f + 1) w (h0 :: h1 :: q)
      = some ⟨[], readFailed ended .readPayloadError⟩ := by
  have hle := Uint16_le [h0, h1]
  have hne : Uint16 [h0, h1] ≠ 0 := by omega
  have h2 : ReadFull (h0 :: h1 :: q) 2 = some ([h0, h1], q) := ReadFull_append [h0, h1] q
  rw [streamToUDPLoop, h2]
  simp only [hne, if_false, gt_iff_lt, bufLen, Nat.not_lt.mpr hle, ReadFull_short q _ hq]

theorem hi_byte_eq (n : Nat) :
    (⟨n % 65536 / 256 % 256, Nat.mod_lt _ (by decide)⟩ : Byte) = Fin.ofNat (n / 256) := by
  apply Fin.ext
  show n % 65536 / 256 % 256 = n / 256 % 256
  omega

theorem lo_byte_eq (n : Nat) :
    (⟨n % 65536 % 256, Nat.mod_lt _ (by decide)⟩ : Byte) = Fin.ofNat (n % 256) := by
  apply Fin.ext
  show n % 65536 % 256 = n % 256 % 256
  omega

theorem frame_eq_wireFrame (p : List Byte) : frame p = wireFrame p := by
  simp only [frame, wireFrame, PutUint16, uint16, hi_byte_eq, lo_byte_eq]

theorem flatMap_frame_eq (ps : List (List Byte)) : ps.flatMap frame = ps.flatMap wireFrame := by
  have h : frame = wireFrame := funext frame_eq_wireFrame
  rw [h]

/-! ## Lemmas on the datagram -> stream loop -/

theorem udp_skip_empty (w : WriteFault) (rest : List UDPRead) :
    udpToStreamLoop w (.datagram [] :: rest) = udpToStreamLoop w rest := by
  simp [udpToStreamLoop]

theorem udp_skip_oversize (payload : List Byte) (h : 65535 < payload.length)
    (w : WriteFault) (rest : List UDPRead) :
    udpToStreamLoop w (.datagram payload :: rest) = udpToStreamLoop w rest := by
  have h0 : payload.length ≠ 0 := by omega
  simp [udpToStreamLoop, h0, h]

/-- An event the loop passes over is passed over wherever it stands in the script. -/
theorem udp_skip_middle (e : UDPRead)
    (he : ∀ w rest, udpToStreamLoop w (e :: rest) = udpToStreamLoop w rest) :
    ∀ (before : List UDPRead) (w : WriteFault) (later : List UDPRead),
      udpToStreamLoop w (before ++ e :: later) = udpToStreamLoop w (before ++ later) := by
  intro before
  induction before with
  | nil => intro w later; exact he w later
  | cons a before ih =>
    intro w later
    cases a with
    | failed => rfl
    | datagram p =>
      rw [List.cons_append, List.cons_append, udpToStreamLoop, udpToStreamLoop]
      simp only [ih]

theorem udp_forward (payload : List Byte) (h0 : payload ≠ []) (h1 : payload.length ≤ 65535)
    (rest : List UDPRead) :
    udpToStreamLoop none (.datagram payload :: rest)
      = (udpToStreamLoop none rest).after (frame payload) := by
  have hpos : payload.length ≠ 0 := fun h => h0 (List.length_eq_zero.mp h)
  have hle : ¬ payload.length > 65535 := by omega
  simp [udpToStreamLoop, hpos, hle, nextWrite, frame]

theorem udp_forward_all (ds : List (List Byte)) (h : ∀ d ∈ ds, d.length ≤ 65535) :
    udpToStreamLoop none (ds.map .datagram)
      = ⟨(ds.filter fun d => d ≠ []).flatMap frame, .blocked⟩ := by
  induction ds with
  | nil => rfl
  | cons d ds ih =>
    have ih1 := ih fun q hq => h q (List.mem_cons_of_mem d hq)
    by_cases h0 : d = []
    · subst h0
      rw [List.map_cons, udp_skip_empty, ih1]
      simp
    · rw [List.map_cons, udp_forward d h0 (h d (List.mem_cons_self d ds)), ih1]
      simp [Written.after, List.filter_cons, h0]

/-- Both stream->datagram pump functions give a result on every stream. -/
theorem pumps_total (c : Client) (ended : Bool) (w : WriteFault) (stream : List Byte) :
    ∃ r : Sent, (Client.streamToUDP c ended w stream).map Run.loop = some r
      ∧ (streamToUDPServer ended w stream).map Run.loop = some r := by
  have hs := loop_isSome bufLen ended (stream.length + 1) w stream (Nat.lt_succ_self _)
  obtain ⟨r, hr⟩ := Option.isSome_iff_exists.mp hs
  exact ⟨r, by simp [Client.streamToUDP, hr], by simp [streamToUDPServer, hr]⟩

/-- The two stream->datagram pump functions over a run of frames followed by
anything: the non-empty payloads, then what the pump does on the rest. -/
theorem pumps_frames (c : Client) (ended : Bool) (ps : List (List Byte))
    (hps : ∀ p ∈ ps, p.length ≤ 65535) (rest : List Byte) :
    ∃ r : Sent,
      (Client.streamToUDP c ended none rest).map Run.loop = some r
      ∧ (streamToUDPServer ended none rest).map Run.loop = some r
      ∧ (Client.streamToUDP c ended none (ps.flatMap wireFrame ++ rest)).map Run.loop
          = some (Sent.afterAll (ps.filter fun p => p ≠ []) r)
      ∧ (streamToUDPServer ended none (ps.flatMap wireFrame ++ rest)).map Run.loop
          = some (Sent.afterAll (ps.filter fun p => p ≠ []) r) := by
  have h := run_frames ended ps hps rest
  rw [flatMap_frame_eq] at h
  have hs := loop_isSome bufLen ended (rest.length + 1) none rest (Nat.lt_succ_self _)
  obtain ⟨r, hr⟩ := Option.isSome_iff_exists.mp hs
  rw [hr] at h
  refine ⟨r, ?_, ?_, ?_, ?_⟩
  · simp only [Client.streamToUDP, hr, Option.map_some']
  · simp only [streamToUDPServer, hr, Option.map_some']
  · simp only [Client.streamToUDP, h, Option.map_some']
  · simp only [streamToUDPServer, h, Option.map_some']

/-! ## The stream -> datagram loop under a write fault -/

/-- One pass over the frame of a non-empty payload whose send goes through. -/
theorem loop_frame_sent (B : Nat) (ended : Bool) (f : Nat) (w w1 : WriteFault)
    (p rest : List Byte) (h0 : p ≠ []) (h1 : p.length ≤ 65535) (hB : p.length ≤ B)
    (hw : nextWrite w = (true, w1)) :
    streamToUDPLoop B ended (f + 1) w (frame p ++ rest)
      = (streamToUDPLoop B ended f w1 rest).map (Sent.after p) := by
  have hpos : p.length ≠ 0 := fun h => h0 (List.length_eq_zero.mp h)
  rw [streamToUDPLoop, frame, List.append_assoc, ReadFull_header]
  simp only [Uint16_PutUint16 p.length h1, hpos, if_false, gt_iff_lt, Nat.not_lt.mpr hB,
    ReadFull_append, hw]

/-- One pass over the frame of a non-empty payload whose send is refused: nothing is
sent and the function returns. -/
theorem loop_frame_refused (B : Nat) (ended : Bool) (f : Nat)
    (p rest : List Byte) (h0 : p ≠ []) (h1 : p.length ≤ 65535) (hB : p.length ≤ B) :
    streamToUDPLoop B ended (f + 1) (some 0) (frame p ++ rest)
      = some ⟨[], .returned .udpWriteError⟩ := by
  have hpos : p.length ≠ 0 := fun h => h0 (List.length_eq_zero.mp h)
  rw [streamToUDPLoop, frame, List.append_assoc, ReadFull_header]
  simp only [Uint16_PutUint16 p.length h1, hpos, if_false, gt_iff_lt, Nat.not_lt.mpr hB,
    ReadFull_append, nextWrite]

/-- A run of frames with the fault further away than their sends: all non-empty
payloads are sent and the loop goes on behind the last frame. -/
theorem loop_frames_within (B : Nat) (ended : Bool) (rest : List Byte) (f : Nat) :
    ∀ (ps : List (List Byte)) (k : Nat), (∀ p ∈ ps, p.length ≤ 65535 ∧ p.length ≤ B) →
      (ps.filter fun p => p ≠ []).length ≤ k →
      streamToUDPLoop B ended (f + ps.length) (some k) (ps.flatMap frame ++ rest)
        = (streamToUDPLoop B ended f (some (k - (ps.filter fun p => p ≠ []).length)) rest).map
            (Sent.afterAll (ps.filter fun p => p ≠ [])) := by
  intro ps
  induction ps with
  | nil =>
    intro k _ _
    simp only [List.length_nil, Nat.add_zero, List.flatMap_nil, List.nil_append,
      List.filter_nil, Nat.sub_zero]
    cases streamToUDPLoop B ended f (some k) rest <;> rfl
  | cons p ps ih =>
    intro k hps hk
    have hp := hps p (List.mem_cons_self p ps)
    have hps1 : ∀ q ∈ ps, q.length ≤ 65535 ∧ q.length ≤ B :=
      fun q hq => hps q (List.mem_cons_of_mem p hq)
    simp only [List.flatMap_cons, List.length_cons, List.append_assoc]
    rw [← Nat.add_assoc]
    by_cases h0 : p = []
    · subst h0
      have hk1 : (ps.filter fun p => p ≠ []).length ≤ k := by simpa using hk
      rw [loop_frame_nil, ih k hps1 hk1]
      simp
    · have hfil : ((p :: ps).filter fun p => p ≠ []) = p :: (ps.filter fun p => p ≠ []) := by
        simp [List.filter_cons, h0]
      rw [hfil] at hk ⊢
      simp only [List.length_cons] at hk ⊢
      obtain ⟨k1, rfl⟩ : ∃ k1, k = k1 + 1 := ⟨k - 1, by omega⟩
      rw [loop_frame_sent B ended _ (some (k1 + 1)) (some k1) p _ h0 hp.1 hp.2 rfl,
        ih k1 hps1 (by omega), Option.map_map]
      have hsub : k1 + 1 - ((ps.filter fun p => p ≠ []).length + 1)
          = k1 - (ps.filter fun p => p ≠ []).length := by omega
      rw [hsub]
      rfl

/-- A run of frames with the fault among their sends: the payloads before the refused
send are sent and the function returns. -/
theorem loop_frames_refused (B : Nat) (ended : Bool) (rest : List Byte) (f : Nat) :
    ∀ (ps : List (List Byte)) (k : Nat), (∀ p ∈ ps, p.length ≤ 65535 ∧ p.length ≤ B) →
      k < (ps.filter fun p => p ≠ []).length →
      streamToUDPLoop B ended (f + ps.length) (some k) (ps.flatMap frame ++ rest)
        = some ⟨(ps.filter fun p => p ≠ []).take k, .returned .udpWriteError⟩ := by
  intro ps
  induction ps with
  | nil =>
    intro k _ hk
    simp at hk
  | cons p ps ih =>
    intro k hps hk
    have hp := hps p (List.mem_cons_self p ps)
    have hps1 : ∀ q ∈ ps, q.length ≤ 65535 ∧ q.length ≤ B :=
      fun q hq => hps q (List.mem_cons_of_mem p hq)
    simp only [List.flatMap_cons, List.length_cons, List.append_assoc]
    rw [← Nat.add_assoc]
    by_cases h0 : p = []
    · subst h0
      have hk1 : k < (ps.filter fun p => p ≠ []).length := by simpa using hk
      rw [loop_frame_nil, ih k hps1 hk1]
      simp
    · have hfil : ((p :: ps).filter fun p => p ≠ []) = p :: (ps.filter fun p => p ≠ []) := by
        simp [List.filter_cons, h0]
      rw [hfil] at hk ⊢
      simp only [List.length_cons] at hk
      cases k with
      | zero =>
        rw [loop_frame_refused B ended _ p _ h0 hp.1 hp.2]
        rfl
      | succ k1 =>
        rw [loop_frame_sent B ended _ (some (k1 + 1)) (some k1) p _ h0 hp.1 hp.2 rfl,
          ih k1 hps1 (by omega)]
        rfl

/-- A run of frames under any write fault, with the fuel the pump functions start
from: the payloads before the first refused send, then either the return on the
refused send or the loop on what follows the frames. -/
theorem run_frames_any (ended : Bool) (ps : List (List Byte))
    (hps : ∀ p ∈ ps, p.length ≤ 65535) (rest : List Byte) (w : WriteFault) :
    streamToUDPLoop bufLen ended ((ps.flatMap frame ++ rest).length + 1) w
        (ps.flatMap frame ++ rest)
      = if accepted w (ps.filter fun p => p ≠ []).length < (ps.filter fun p => p ≠ []).length
        then some ⟨(ps.filter fun p => p ≠ []).take
                (accepted w (ps.filter fun p => p ≠ []).length), .returned .udpWriteError⟩
        else (streamToUDPLoop bufLen ended (rest.length + 1)
                (faultAfter w (ps.filter fun p => p ≠ []).length) rest).map
              (Sent.afterAll (ps.filter fun p => p ≠ [])) := by
  cases w with
  | none =>
    simp only [accepted, faultAfter, Nat.lt_irrefl, if_false]
    exact run_frames ended ps hps rest
  | some k =>
    have hlen := frames_length_ge ps
    have hfuel : (ps.flatMap frame ++ rest).length + 1
        = ((ps.flatMap frame ++ rest).length + 1 - ps.length) + ps.length := by
      simp only [List.length_append]
      omega
    have hps2 : ∀ p ∈ ps, p.length ≤ 65535 ∧ p.length ≤ bufLen :=
      fun p hp => ⟨hps p hp, hps p hp⟩
    by_cases hk : k < (ps.filter fun p => p ≠ []).length
    · have hacc : accepted (some k) (ps.filter fun p => p ≠ []).length = k := by
        simp only [accepted]
        omega
      rw [hacc, if_pos hk, hfuel, loop_frames_refused bufLen ended rest _ ps k hps2 hk]
    · have hacc : accepted (some k) (ps.filter fun p => p ≠ []).length
          = (ps.filter fun p => p ≠ []).length := by
        simp only [accepted]
        omega
      rw [hacc, if_neg (Nat.lt_irrefl _), hfuel,
        loop_frames_within bufLen ended rest _ ps k hps2 (by omega)]
      simp only [faultAfter]
      rw [loop_fuel bufLen ended _ (rest.length + 1) _ rest
        (by simp only [List.length_append]; omega) (by omega)]

/-- A socket that refuses every send gets no datagram out of the loop. -/
theorem loop_refusing (B : Nat) (ended : Bool) :
    ∀ (f : Nat) (s : List Byte) (r : Sent),
      streamToUDPLoop B ended f (some 0) s = some r → r.datagrams = [] := by
  intro f
  induction f with
  | zero => intro s r h; exact absurd h (by simp [streamToUDPLoop])
  | succ f ih =>
    intro s r h
    rw [streamToUDPLoop] at h
    cases h2 : ReadFull s 2 with
    | none =>
      rw [h2] at h
      simp only [Option.some.injEq] at h
      rw [← h]
    | some hs =>
      obtain ⟨header, s1⟩ := hs
      rw [h2] at h
      simp only at h
      split at h
      · exact ih s1 r h
      · split at h
        · cases hB : ReadFull s1 B with
          | none =>
            rw [hB] at h
            simp only [Option.some.injEq] at h
            rw [← h]
          | some r2 =>
            obtain ⟨junk, s2⟩ := r2
            rw [hB] at h
            exact ih s2 r h
        · cases hL : ReadFull s1 (Uint16 header) with
          | none =>
            rw [hL] at h
            simp only [Option.some.injEq] at h
            rw [← h]
          | some r2 =>
            obtain ⟨payload, s2⟩ := r2
            rw [hL] at h
            simp only [nextWrite, Option.some.injEq] at h
            rw [← h]

theorem accepted_le (w : WriteFault) (n : Nat) : accepted w n ≤ n := by
  cases w with
  | none => exact Nat.le_refl n
  | some k => exact Nat.min_le_right k n

/-- A run of frames followed by bytes on which the loop sends nothing and stops in
state `st` whatever the write fault: the payloads before the first refused send,
and the return on the refused send or else `st`. -/
theorem run_frames_then (ended : Bool) (ps : List (List Byte))
    (hps : ∀ p ∈ ps, p.length ≤ 65535) (rest : List Byte) (st : Status)
    (hrest : ∀ w1, streamToUDPLoop bufLen ended (rest.length + 1) w1 rest = some ⟨[], st⟩)
    (w : WriteFault) :
    streamToUDPLoop bufLen ended ((ps.flatMap wireFrame ++ rest).length + 1) w
        (ps.flatMap wireFrame ++ rest)
      = some ⟨(ps.filter fun p => p ≠ []).take
                (accepted w (ps.filter fun p => p ≠ []).length),
              if accepted w (ps.filter fun p => p ≠ []).length
                  < (ps.filter fun p => p ≠ []).length
              then .returned .udpWriteError else st⟩ := by
  have h := run_frames_any ended ps hps rest w
  rw [flatMap_frame_eq] at h
  rw [h]
  have hle := accepted_le w (ps.filter fun p => p ≠ []).length
  by_cases hlt : accepted w (ps.filter fun p => p ≠ []).length
      < (ps.filter fun p => p ≠ []).length
  · simp only [hlt, if_true]
  · have heq : accepted w (ps.filter fun p => p ≠ []).length
        = (ps.filter fun p => p ≠ []).length := by omega
    rw [if_neg hlt, if_neg hlt, hrest, heq, List.take_length]
    simp only [Option.map_some', Sent.afterAll, List.append_nil]

/-! ## Lemmas on construction -/

/-- What a config `LoadClientConfig` returns was read from a file whose `server_addr`
is not empty, and carries that address. -/
theorem LoadClientConfig_some (h : Host) (path : String) (cfg : ClientConfig)
    (hl : LoadClientConfig h path = some cfg) :
    ∃ data raw, h.ReadFile path = some data ∧ h.UnmarshalClient data = some raw
      ∧ raw.ServerAddr ≠ "" ∧ cfg.ServerAddr = raw.ServerAddr := by
  unfold LoadClientConfig at hl
  cases hr : h.ReadFile path with
  | none => rw [hr] at hl; exact absurd hl (by simp)
  | some data =>
    rw [hr] at hl
    simp only at hl
    cases hu : h.UnmarshalClient data with
    | none => rw [hu] at hl; exact absurd hl (by simp)
    | some raw =>
      rw [hu] at hl
      simp only at hl
      by_cases hs : raw.ServerAddr = ""
      · simp [hs] at hl
      · simp only [hs, if_false, Option.some.injEq] at hl
        refine ⟨data, raw, rfl, hu, hs, ?_⟩
        rw [← hl]
        split <;> rfl

/-- What a config `LoadServerConfig` returns was read from a file, and carries the
file's `listen_addr`, or ":8443" when the file leaves it empty. -/
theorem LoadServerConfig_some (h : Host) (path : String) (cfg : ServerConfig)
    (hl : LoadServerConfig h path = some cfg) :
    ∃ data raw, h.ReadFile path = some data ∧ h.UnmarshalServer data = some raw
      ∧ cfg.ListenAddr = if raw.ListenAddr = "" then ":8443" else raw.ListenAddr := by
  unfold LoadServerConfig at hl
  cases hr : h.ReadFile path with
  | none => rw [hr] at hl; exact absurd hl (by simp)
  | some data =>
    rw [hr] at hl
    simp only at hl
    cases hu : h.UnmarshalServer data with
    | none => rw [hu] at hl; exact absurd hl (by simp)
    | some raw =>
      rw [hu] at hl
      simp only [Option.some.injEq] at hl
      refine ⟨data, raw, rfl, hu, ?_⟩
      rw [← hl]
      by_cases h1 : raw.ListenAddr = "" <;> by_cases h2 : raw.WireGuardRemote = "" <;>
        simp [h1, h2]

/-- The address a client from `NewClient` dials. -/
theorem NewClient_serverAddr (h : Host) (path a : String) (c : Client)
    (hn : NewClient h path a = some c) :
    ∃ cfg, LoadClientConfig h path = some cfg
      ∧ c.serverAddr = if a ≠ "" then a else cfg.ServerAddr := by
  unfold NewClient at hn
  cases hl : LoadClientConfig h path with
  | none => rw [hl] at hn; exact absurd hn (by simp)
  | some cfg =>
    rw [hl] at hn
    simp only at hn
    refine ⟨cfg, rfl, ?_⟩
    split at hn
    · exact absurd hn (by simp)
    · simp only [Option.some.injEq] at hn
      rw [← hn]
      by_cases ha : a = "" <;> simp [ha]

/-- The address a server from `NewServer` listens on. -/
theorem NewServer_addr (h : Host) (path a : String) (s : Server)
    (hn : NewServer h path a = some s) :
    ∃ cfg, LoadServerConfig h path = some cfg
      ∧ s.addr = if a ≠ "" then a else cfg.ListenAddr := by
  unfold NewServer at hn
  cases hl : LoadServerConfig h path with
  | none => rw [hl] at hn; exact absurd hn (by simp)
  | some cfg =>
    rw [hl] at hn
    simp only at hn
    refine ⟨cfg, rfl, ?_⟩
    by_cases ha : a = ""
    · simp only [ha, ne_eq, not_true_eq_false, if_false] at hn ⊢
      split at hn
      · exact absurd hn (by simp)
      · simp only [Option.some.injEq] at hn
        rw [← hn]
    · simp only [ne_eq, ha, not_false_eq_true, if_true] at hn ⊢
      split at hn
      · exact absurd hn (by simp)
      · simp only [Option.some.injEq] at hn
        rw [← hn]

/-! ## The claims -/

/-- C1, counterexample: the empty payload does not make the round trip, and a payload
whose UDP send is refused does not either. For the single datagram of length 0 the
client's `udpToStream` writes nothing, and the server's `streamToUDPServer` reading
that sends no datagram at all, not the one empty datagram; the same in the other
direction. For the datagram `[1, 2, 3]` and a pump whose `udpConn.Write` fails, the
frame is read, nothing is sent and the pump returns on the udp write error. -/
theorem round_trip_fails_on_empty :
    (Client.udpToStream sampleClient none [.datagram []]).loop.bytes = []
    ∧ (streamToUDPServer true none
        (Client.udpToStream sampleClient none [.datagram []]).loop.bytes).map
          (fun r => r.loop.datagrams) = some []
    ∧ (Client.streamToUDP sampleClient true none
        (udpToStreamServer none [.datagram []]).loop.bytes).map
          (fun r => r.loop.datagrams) = some []
    ∧ (some [] : Option (List (List Byte))) ≠ some [[]]
    ∧ (Client.streamToUDP sampleClient true (some 0)
        (udpToStreamServer none [.datagram [1, 2, 3]]).loop.bytes).map Run.loop
          = some ⟨[], .returned .udpWriteError⟩ := by
  decide

/-- C1, amended: framing round trip for every payload P with 1 <= len(P) <= 65535.
The bytes a datagram->stream pump writes for the single datagram P (its stream
writes succeeding), read by the opposite side's stream->datagram pump (whether or
not the stream ends after them), make it decode the one frame of P; when its
`udpConn.Write` for that frame succeeds it sends exactly one datagram, and that
datagram is P, and it is then in its next header read; when that `Write` fails it
sends no datagram and returns on the udp write error. -/
theorem framing_round_trip (c : Client) (P : List Byte) (h1 : 1 ≤ P.length)
    (h2 : P.length ≤ 65535) (ended : Bool) :
    (∀ w : WriteFault, w ≠ some 0 →
      (streamToUDPServer ended w (Client.udpToStream c none [.datagram P]).loop.bytes).map
          Run.loop = some ⟨[P], readFailed ended .readLengthError⟩
      ∧ (Client.streamToUDP c ended w (udpToStreamServer none [.datagram P]).loop.bytes).map
          Run.loop = some ⟨[P], readFailed ended .readLengthError⟩)
    ∧ (streamToUDPServer ended (some 0)
          (Client.udpToStream c none [.datagram P]).loop.bytes).map Run.loop
        = some ⟨[], .returned .udpWriteError⟩
    ∧ (Client.streamToUDP c ended (some 0)
          (udpToStreamServer none [.datagram P]).loop.bytes).map Run.loop
        = some ⟨[], .returned .udpWriteError⟩ := by
  have h0 : P ≠ [] := by
    intro h
    rw [h] at h1
    exact absurd h1 (by decide)
  have hw : udpToStreamLoop none [.datagram P] = ⟨[P].flatMap wireFrame ++ [], .blocked⟩ := by
    rw [udp_forward P h0 h2, frame_eq_wireFrame]
    simp [udpToStreamLoop, Written.after]
  have hfil : ([P].filter fun p => p ≠ []) = [P] := by
    simp [List.filter_cons, h0]
  have hr := run_frames_then ended [P]
    (fun p hp => by rw [List.mem_singleton.mp hp]; exact h2) []
    (readFailed ended .readLengthError) (fun w1 => run_nil bufLen ended w1)
  simp only [hfil, List.length_singleton] at hr
  refine ⟨?_, ?_, ?_⟩
  · intro w hne
    have hacc : accepted w 1 = 1 := by
      cases w with
      | none => rfl
      | some k =>
        have hk : k ≠ 0 := fun hk => hne (by rw [hk])
        simp only [accepted]
        omega
    have hrw := hr w
    simp only [hacc, Nat.lt_irrefl, if_false, List.take_succ_cons, List.take_zero] at hrw
    simp only [Client.udpToStream, udpToStreamServer, Client.streamToUDP, streamToUDPServer,
      hw, hrw, Option.map_map, Option.map_some', Function.comp, and_self]
  · have hrw := hr (some 0)
    simp only [accepted, Nat.zero_min, Nat.zero_lt_one, if_true, List.take_zero] at hrw
    simp only [Client.udpToStream, streamToUDPServer, hw, hrw, Option.map_map,
      Option.map_some', Function.comp]
  · have hrw := hr (some 0)
    simp only [accepted, Nat.zero_min, Nat.zero_lt_one, if_true, List.take_zero] at hrw
    simp only [udpToStreamServer, Client.streamToUDP, hw, hrw, Option.map_map,
      Option.map_some', Function.comp]

/-- C1, instance: the datagram `[1, 2, 3]` of the end-to-end scenario on a stream that
has ended, with the UDP send going through and with it refused. -/
theorem framing_round_trip_witness :
    ((streamToUDPServer true none
        (Client.udpToStream sampleClient none [.datagram [1, 2, 3]]).loop.bytes).map
          Run.loop = some ⟨[[1, 2, 3]], .returned .readLengthError⟩
      ∧ (Client.streamToUDP sampleClient true none
        (udpToStreamServer none [.datagram [1, 2, 3]]).loop.bytes).map
          Run.loop = some ⟨[[1, 2, 3]], .returned .readLengthError⟩)
    ∧ (streamToUDPServer true (some 0)
        (Client.udpToStream sampleClient none [.datagram [1, 2, 3]]).loop.bytes).map
          Run.loop = some ⟨[], .returned .udpWriteError⟩ :=
  have h := framing_round_trip sampleClient [1, 2, 3] (by decide) (by decide) true
  ⟨h.1 none (by decide), h.2.1⟩

/-- For payloads p1..pk of length 0..65535 and any write fault, `streamToUDP` and
`streamToUDPServer` reading the concatenation of their frames send the non-empty
payloads in order, one datagram each, up to the first send that is refused; they
return there on the udp write error, and with no send refused they are in their
next header read after the last frame. -/
theorem deframing_until_refused (c : Client) (ended : Bool) (ps : List (List Byte))
    (hps : ∀ p ∈ ps, p.length ≤ 65535) (w : WriteFault) :
    (Client.streamToUDP c ended w (ps.flatMap wireFrame)).map Run.loop
        = some ⟨(ps.filter fun p => p ≠ []).take
                  (accepted w (ps.filter fun p => p ≠ []).length),
                if accepted w (ps.filter fun p => p ≠ []).length
                    < (ps.filter fun p => p ≠ []).length
                then .returned .udpWriteError else readFailed ended .readLengthError⟩
    ∧ (streamToUDPServer ended w (ps.flatMap wireFrame)).map Run.loop
        = some ⟨(ps.filter fun p => p ≠ []).take
                  (accepted w (ps.filter fun p => p ≠ []).length),
                if accepted w (ps.filter fun p => p ≠ []).length
                    < (ps.filter fun p => p ≠ []).length
                then .returned .udpWriteError else readFailed ended .readLengthError⟩ := by
  have hr := run_frames_then ended ps hps [] (readFailed ended .readLengthError)
    (fun w1 => run_nil bufLen ended w1) w
  rw [List.append_nil] at hr
  simp only [Client.streamToUDP, streamToUDPServer, hr, Option.map_map, Option.map_some',
    Function.comp, and_self]

/-- The pump `Client.Start` runs as `streamToUDP` never sends a datagram, whatever the
sub-channel carries and whatever the network does: its socket comes from
`net.ListenUDP` and has no remote address for `Write`. -/
theorem started_client_never_sends (c : Client) (tlsDial yamuxClient : Option Handle)
    (sessionOpen : Bool) (listenUDP : Option Handle) (writes : WriteFault)
    (reads : List UDPRead) (ended : Bool) (network : WriteFault) (stream : List Byte)
    (st : Started) (r : Run Sent)
    (hst : c.Start tlsDial yamuxClient sessionOpen listenUDP writes reads ended network stream
      = some st)
    (hr : st.streamToUDP = some r) : r.loop.datagrams = [] := by
  unfold Client.Start at hst
  cases tlsDial with
  | none =>
    simp only [Option.some.injEq] at hst
    rw [← hst] at hr
    exact absurd hr (by simp)
  | some conn =>
    cases yamuxClient with
    | none =>
      simp only [Option.some.injEq] at hst
      rw [← hst] at hr
      exact absurd hr (by simp)
    | some session =>
      cases sessionOpen with
      | false =>
        simp only [if_true, Option.some.injEq] at hst
        rw [← hst] at hr
        exact absurd hr (by simp)
      | true =>
        cases listenUDP with
        | none =>
          simp only [Bool.true_eq_false, if_false, Option.some.injEq] at hst
          rw [← hst] at hr
          exact absurd hr (by simp)
        | some wgConn =>
          simp only [Bool.true_eq_false, if_false, Option.map_eq_some'] at hst
          obtain ⟨down, hdown, hst⟩ := hst
          rw [← hst] at hr
          simp only [Option.some.injEq] at hr
          rw [← hr]
          simp only [Client.streamToUDP, UDPConn.writeFault, Option.map_eq_some'] at hdown
          obtain ⟨a, ha, hda⟩ := hdown
          rw [← hda]
          exact loop_refusing bufLen ended _ stream a ha

/-- C2, the failing input: the client never sends what it de-frames. After a
`Client.Start` in which every step succeeds, with the sub-channel carrying the
frames of `[1, 2]`, of the empty payload and of `[3]`, `streamToUDP` reads the
first frame, has its `udpConn.Write` fail on the socket from `net.ListenUDP`, sends
nothing and returns on the udp write error; `streamToUDPServer`, whose socket
comes from `net.DialUDP`, sends `[1, 2]` and `[3]` from the same bytes. -/
theorem client_reader_sends_nothing :
    Client.Start sampleClient (some ⟨false⟩) (some ⟨false⟩) true (some ⟨false⟩)
        none [] false none ([[1, 2], [], [3]].flatMap wireFrame)
      = some ⟨{ sampleClient with
                  conn := some ⟨false⟩, session := some ⟨false⟩, wgConn := some ⟨false⟩ },
              false, some ⟨⟨[], .blocked⟩, false⟩,
              some ⟨⟨[], .returned .udpWriteError⟩, true⟩⟩
    ∧ streamToUDPServer false
        ((⟨some ⟨"127.0.0.1", 51820⟩⟩ : UDPConn).writeFault none)
        ([[1, 2], [], [3]].flatMap wireFrame)
      = some ⟨⟨[[1, 2], [3]], .blocked⟩, false⟩ := by
  decide

/-- C4, counterexample: a complete frame is not delivered when a UDP send before it
is refused. On the frames of `[1]` and `[2]` followed by a lone header byte and the
end of the stream, with the second `udpConn.Write` failing, `streamToUDPServer`
sends `[1]` only and returns on the udp write error. -/
theorem refused_send_drops_complete_frame :
    streamToUDPServer true (some 1) ([[1], [2]].flatMap wireFrame ++ [5])
      = some ⟨⟨[[1]], .returned .udpWriteError⟩, false⟩
    ∧ ([[1]] : List (List Byte)) ≠ [[1], [2]] := by
  decide

/-- C4, amended: truncated frames are fatal and never delivered. On a sub-channel
carrying complete frames of payloads p1..pk (each 0..65535 bytes), then an
incomplete frame (a lone header byte, or a header declaring more payload bytes
than follow), then the end of the stream or a read error, both stream->datagram
pumps, under any write fault, send datagrams of the complete frames only: their
non-empty payloads in order up to the first refused send, all of them when none
is refused. They send nothing for the incomplete frame, and they return: on the
udp write error at a refused send, otherwise on the read error at the incomplete
frame (length error for the lone byte, payload error for the short payload). -/
theorem truncated_frame_fatal (c : Client) (ps : List (List Byte))
    (hps : ∀ p ∈ ps, p.length ≤ 65535) (w : WriteFault) :
    (∀ b : Byte,
      Client.streamToUDP c true w (ps.flatMap wireFrame ++ [b])
        = some ⟨⟨(ps.filter fun p => p ≠ []).take
                    (accepted w (ps.filter fun p => p ≠ []).length),
                  if accepted w (ps.filter fun p => p ≠ []).length
                      < (ps.filter fun p => p ≠ []).length
                  then .returned .udpWriteError else .returned .readLengthError⟩, true⟩
      ∧ streamToUDPServer true w (ps.flatMap wireFrame ++ [b])
        = some ⟨⟨(ps.filter fun p => p ≠ []).take
                    (accepted w (ps.filter fun p => p ≠ []).length),
                  if accepted w (ps.filter fun p => p ≠ []).length
                      < (ps.filter fun p => p ≠ []).length
                  then .returned .udpWriteError else .returned .readLengthError⟩, false⟩)
    ∧ (∀ (h0 h1 : Byte) (q : List Byte), q.length < h0.val * 256 + h1.val →
      Client.streamToUDP c true w (ps.flatMap wireFrame ++ h0 :: h1 :: q)
        = some ⟨⟨(ps.filter fun p => p ≠ []).take
                    (accepted w (ps.filter fun p => p ≠ []).length),
                  if accepted w (ps.filter fun p => p ≠ []).length
                      < (ps.filter fun p => p ≠ []).length
                  then .returned .udpWriteError else .returned .readPayloadError⟩, true⟩
      ∧ streamToUDPServer true w (ps.flatMap wireFrame ++ h0 :: h1 :: q)
        = some ⟨⟨(ps.filter fun p => p ≠ []).take
                    (accepted w (ps.filter fun p => p ≠ []).length),
                  if accepted w (ps.filter fun p => p ≠ []).length
                      < (ps.filter fun p => p ≠ []).length
                  then .returned .udpWriteError else .returned .readPayloadError⟩, false⟩) := by
  constructor
  · intro b
    have h := run_frames_then true ps hps [b] (.returned .readLengthError)
      (fun w1 => run_one bufLen true 1 w1 b) w
    simp only [Client.streamToUDP, streamToUDPServer, h, Option.map_some']
    refine ⟨?_, trivial⟩
    congr 2
    split <;> rfl
  · intro h0 h1 q hq
    have hq1 : q.length < Uint16 [h0, h1] := by
      simp only [Uint16, List.getD_cons_zero, List.getD_cons_succ]
      omega
    have h := run_frames_then true ps hps (h0 :: h1 :: q) (.returned .readPayloadError)
      (fun w1 => run_short true _ w1 h0 h1 q hq1) w
    simp only [Client.streamToUDP, streamToUDPServer, h, Option.map_some']
    refine ⟨?_, trivial⟩
    congr 2
    split <;> rfl

/-- C4, instance: the frames of `[1, 2, 3]` and of the empty payload, then a lone
byte, or then a header declaring 4 bytes with 2 behind it; no send refused, and
the first send refused. -/
theorem truncated_frame_fatal_witness :
    (Client.streamToUDP sampleClient true none ([[1, 2, 3], []].flatMap wireFrame ++ [5])
        = some ⟨⟨[[1, 2, 3]], .returned .readLengthError⟩, true⟩
      ∧ streamToUDPServer true none ([[1, 2, 3], []].flatMap wireFrame ++ [5])
        = some ⟨⟨[[1, 2, 3]], .returned .readLengthError⟩, false⟩)
    ∧ (Client.streamToUDP sampleClient true none
          ([[1, 2, 3], []].flatMap wireFrame ++ [0, 4, 8, 9])
        = some ⟨⟨[[1, 2, 3]], .returned .readPayloadError⟩, true⟩
      ∧ streamToUDPServer true none ([[1, 2, 3], []].flatMap wireFrame ++ [0, 4, 8, 9])
        = some ⟨⟨[[1, 2, 3]], .returned .readPayloadError⟩, false⟩)
    ∧ (Client.streamToUDP sampleClient true (some 0)
          ([[1, 2, 3], []].flatMap wireFrame ++ [5])
        = some ⟨⟨[], .returned .udpWriteError⟩, true⟩
      ∧ streamToUDPServer true (some 0) ([[1, 2, 3], []].flatMap wireFrame ++ [5])
        = some ⟨⟨[], .returned .udpWriteError⟩, false⟩) :=
  have h := truncated_frame_fatal sampleClient [[1, 2, 3], []] (by decide) none
  have hz := truncated_frame_fatal sampleClient [[1, 2, 3], []] (by decide) (some 0)
  ⟨h.1 5, h.2 0 4 [8, 9] (by decide), hz.1 5⟩

/-- C5, the failing inputs: `streamToUDPServer` returns and the sub-channel is still
open. Started by `handleWireGuardStream` on a sub-channel that is at its end, or
that carries one frame while the UDP socket refuses the send, the pump logs and
returns; `udpToStreamServer` is still blocked in `ReadFromUDP`, so the deferred
`stream.Close()` of `handleWireGuardStream` has not run, and `streamToUDPServer`
has none of its own. The client's `streamToUDP` on the same inputs has closed it. -/
theorem server_reader_leaves_stream_open :
    Server.handleWireGuardStream sampleServer sampleHost.ResolveUDPAddr true none [] true none []
      = some (.bridged ⟨⟨[], .blocked⟩, false⟩ ⟨⟨[], .returned .readLengthError⟩, false⟩
          false false)
    ∧ Server.handleWireGuardStream sampleServer sampleHost.ResolveUDPAddr true none [] false
        (some 0) (wireFrame [1])
      = some (.bridged ⟨⟨[], .blocked⟩, false⟩ ⟨⟨[], .returned .udpWriteError⟩, false⟩
          false false)
    ∧ Client.streamToUDP sampleClient true none []
      = some ⟨⟨[], .returned .readLengthError⟩, true⟩
    ∧ Client.streamToUDP sampleClient false (some 0) (wireFrame [1])
      = some ⟨⟨[], .returned .udpWriteError⟩, true⟩ := by
  decide

/-- The three pumps that do close: whenever `Client.udpToStream`, `Client.streamToUDP`
or the `udpToStreamServer` call of `handleWireGuardStream` has returned, the
sub-channel has been closed. -/
theorem closing_pumps_close_stream (c : Client) (s : Server)
    (resolve : String → Option UDPAddr) (dialOk : Bool) (w uw : WriteFault)
    (reads : List UDPRead) (ended : Bool) (stream : List Byte) :
    ((Client.udpToStream c w reads).loop.status.isReturned = true →
        (Client.udpToStream c w reads).streamClosed = true)
    ∧ (∀ r, Client.streamToUDP c ended uw stream = some r →
        r.loop.status.isReturned = true → r.streamClosed = true)
    ∧ (∀ up down sc wc,
        Server.handleWireGuardStream s resolve dialOk w reads ended uw stream
          = some (.bridged up down sc wc) →
        up.loop.status.isReturned = true → sc = true) := by
  refine ⟨fun h => h, ?_, ?_⟩
  · intro r hr hret
    simp only [Client.streamToUDP, Option.map_eq_some'] at hr
    obtain ⟨a, _, rfl⟩ := hr
    exact hret
  · intro up down sc wc hh hret
    unfold Server.handleWireGuardStream at hh
    split at hh
    · exact absurd hh (by simp)
    · split at hh
      · exact absurd hh (by simp)
      · simp only [Option.map_eq_some'] at hh
        obtain ⟨a, _, ha⟩ := hh
        injection ha with h1 h2 h3 h4
        rw [← h3, h1]
        exact hret

/-- C6: zero-length datagrams are absorbed. For every sequence of datagrams the UDP
socket hands over (each at most the 65535 bytes a length field can declare, no
write failing), `udpToStream` and `udpToStreamServer` write exactly the
concatenation, in receive order, of `[len_hi, len_lo] + payload` for the non-empty
ones and are then blocked in the next receive; and a datagram of length 0,
wherever it stands among the receive results and whatever the state of the
writes, leaves the run exactly as it is without it. -/
theorem zero_length_datagrams_absorbed (c : Client) (ds : List (List Byte))
    (h : ∀ d ∈ ds, d.length ≤ 65535) :
    (Client.udpToStream c none (ds.map .datagram)).loop
        = ⟨(ds.filter fun d => d ≠ []).flatMap wireFrame, .blocked⟩
    ∧ (udpToStreamServer none (ds.map .datagram)).loop
        = ⟨(ds.filter fun d => d ≠ []).flatMap wireFrame, .blocked⟩
    ∧ (∀ (w : WriteFault) (before later : List UDPRead),
        Client.udpToStream c w (before ++ .datagram [] :: later)
          = Client.udpToStream c w (before ++ later)
        ∧ udpToStreamServer w (before ++ .datagram [] :: later)
          = udpToStreamServer w (before ++ later)) := by
  have hall := udp_forward_all ds h
  rw [flatMap_frame_eq] at hall
  refine ⟨hall, hall, ?_⟩
  intro w before later
  have hskip := udp_skip_middle (.datagram []) udp_skip_empty before w later
  simp only [Client.udpToStream, udpToStreamServer, hskip, and_self]

/-- C6, instance: `[1, 2, 3]`, an empty datagram, `[7]`. -/
theorem zero_length_datagrams_absorbed_witness :
    (Client.udpToStream sampleClient none
        ([[1, 2, 3], [], [7]].map .datagram)).loop
      = ⟨[0, 3, 1, 2, 3, 0, 1, 7], .blocked⟩
    ∧ (udpToStreamServer none ([[1, 2, 3], [], [7]].map .datagram)).loop
      = ⟨[0, 3, 1, 2, 3, 0, 1, 7], .blocked⟩ :=
  have h := zero_length_datagrams_absorbed sampleClient [[1, 2, 3], [], [7]] (by decide)
  ⟨h.1, h.2.1⟩

/-- C7: oversize rejection. A receive that reports more than 65535 bytes makes
`udpToStream` and `udpToStreamServer` write nothing (no header, no payload, no
`Write` call at all) and go on with the next receive: the run is exactly the run
without that datagram, and on its own the datagram leaves the pump blocked in the
next receive with nothing written. -/
theorem oversize_datagram_rejected (c : Client) (payload : List Byte)
    (h : 65535 < payload.length) (w : WriteFault) (before later : List UDPRead) :
    Client.udpToStream c w (before ++ .datagram payload :: later)
        = Client.udpToStream c w (before ++ later)
    ∧ udpToStreamServer w (before ++ .datagram payload :: later)
        = udpToStreamServer w (before ++ later)
    ∧ (Client.udpToStream c w [.datagram payload]).loop = ⟨[], .blocked⟩
    ∧ (udpToStreamServer w [.datagram payload]).loop = ⟨[], .blocked⟩ := by
  have hskip := udp_skip_middle (.datagram payload) (udp_skip_oversize payload h) before w later
  have hone : udpToStreamLoop w [.datagram payload] = ⟨[], .blocked⟩ := by
    rw [udp_skip_oversize payload h w [], udpToStreamLoop]
  simp only [Client.udpToStream, udpToStreamServer, hskip, hone, and_self]

/-- C7, instance: a report of 65536 bytes between the datagrams `[1]` and `[2]`. -/
theorem oversize_datagram_rejected_witness :
    65535 < (List.replicate 65536 (0 : Byte)).length
    ∧ Client.udpToStream sampleClient none
        ([.datagram [1]] ++ .datagram (List.replicate 65536 0) :: [.datagram [2]])
      = Client.udpToStream sampleClient none ([.datagram [1]] ++ [.datagram [2]])
    ∧ udpToStreamServer none
        ([.datagram [1]] ++ .datagram (List.replicate 65536 0) :: [.datagram [2]])
      = udpToStreamServer none ([.datagram [1]] ++ [.datagram [2]]) :=
  have hlen : 65535 < (List.replicate 65536 (0 : Byte)).length := by
    rw [List.length_replicate]
    decide
  have h := oversize_datagram_rejected sampleClient (List.replicate 65536 0) hlen none
    [.datagram [1]] [.datagram [2]]
  ⟨hlen, h.1, h.2.1⟩

/-- C8: best-effort ordered shutdown. For every client, whatever each `Close()`
returns, the closes `Client.Close` attempts are in the order UDP socket,
multiplexed session, encrypted connection, and each resource is closed exactly
once when its field is set and not at all when it is `nil`; so a failing earlier
close keeps no later one from being attempted. -/
theorem close_best_effort (c : Client) :
    (c.Close).1.Sublist [Resource.wgConn, Resource.session, Resource.conn]
    ∧ (∀ r : Resource, (c.Close).1.count r = if c.isSet r then 1 else 0)
    ∧ (c.Close).1 = [Resource.wgConn, Resource.session, Resource.conn].filter c.isSet := by
  have h3 : (c.Close).1 = [Resource.wgConn, Resource.session, Resource.conn].filter c.isSet := by
    obtain ⟨addr, conn, session, wgAddr, wgConn⟩ := c
    cases conn <;> cases session <;> cases wgConn <;> rfl
  refine ⟨?_, ?_, h3⟩
  · rw [h3]
    exact List.filter_sublist _
  · intro r
    obtain ⟨addr, conn, session, wgAddr, wgConn⟩ := c
    cases conn <;> cases session <;> cases wgConn <;> cases r <;> rfl

/-- C9: address resolution. When the server's config file reads and parses and its
key pair loads, `NewServer` listens on the argument when that is non-empty,
otherwise on the file's `listen_addr`, otherwise on ":8443"; when the client's
config file reads and parses with a `server_addr` and its WireGuard address
resolves, `NewClient` dials the argument when that is non-empty, otherwise the
file's `server_addr`. The WireGuard UDP address is the file's value, or
"127.0.0.1:51820" when the file leaves it empty. -/
theorem address_resolution (h : Host) (a spath sdata cpath cdata : String)
    (scfg : ServerConfig) (ccfg : ClientConfig) (wg : UDPAddr)
    (hs1 : h.ReadFile spath = some sdata) (hs2 : h.UnmarshalServer sdata = some scfg)
    (hs3 : h.LoadX509KeyPair scfg.TLSCertFile scfg.TLSKeyFile = true)
    (hc1 : h.ReadFile cpath = some cdata) (hc2 : h.UnmarshalClient cdata = some ccfg)
    (hc3 : ccfg.ServerAddr ≠ "")
    (hc4 : h.ResolveUDPAddr
      (if ccfg.WireGuardLocal = "" then "127.0.0.1:51820" else ccfg.WireGuardLocal) = some wg) :
    NewServer h spath a = some
        { addr := if a ≠ "" then a else if scfg.ListenAddr ≠ "" then scfg.ListenAddr else ":8443"
          wireGuardRemote :=
            if scfg.WireGuardRemote = "" then "127.0.0.1:51820" else scfg.WireGuardRemote
          listener := none }
    ∧ NewClient h cpath a = some
        { serverAddr := if a ≠ "" then a else ccfg.ServerAddr
          conn := none, session := none, wgLocalAddr := wg, wgConn := none } := by
  constructor
  · simp only [NewServer, LoadServerConfig, hs1, hs2]
    by_cases ha : a = "" <;> by_cases hl : scfg.ListenAddr = "" <;>
      by_cases hw : scfg.WireGuardRemote = "" <;> simp [ha, hl, hw, hs3]
  · simp only [NewClient, LoadClientConfig, hc1, hc2, hc3, if_false]
    by_cases ha : a = "" <;> by_cases hw : ccfg.WireGuardLocal = "" <;>
      simp [ha, hw] at hc4 ⊢ <;> simp [hc4]

/-- C9, instance: a host whose files leave `listen_addr` and both WireGuard addresses
empty, without an address argument and with one. -/
theorem address_resolution_witness :
    (NewServer sampleHost "tunnel-server.yaml" "" = some ⟨":8443", "127.0.0.1:51820", none⟩
      ∧ NewClient sampleHost "tunnel-client.yaml" ""
        = some ⟨"vpn.example.org:443", none, none, ⟨"127.0.0.1", 51820⟩, none⟩)
    ∧ (NewServer sampleHost "tunnel-server.yaml" "10.0.0.1:9000"
        = some ⟨"10.0.0.1:9000", "127.0.0.1:51820", none⟩
      ∧ NewClient sampleHost "tunnel-client.yaml" "10.0.0.1:9000"
        = some ⟨"10.0.0.1:9000", none, none, ⟨"127.0.0.1", 51820⟩, none⟩) :=
  ⟨address_resolution sampleHost "" "tunnel-server.yaml" "yaml" "tunnel-client.yaml" "yaml"
      ⟨"", "cert.pem", "key.pem", ""⟩ ⟨"vpn.example.org:443", "", ""⟩ ⟨"127.0.0.1", 51820⟩
      rfl rfl rfl rfl rfl (by decide) rfl,
   address_resolution sampleHost "10.0.0.1:9000" "tunnel-server.yaml" "yaml"
      "tunnel-client.yaml" "yaml"
      ⟨"", "cert.pem", "key.pem", ""⟩ ⟨"vpn.example.org:443", "", ""⟩ ⟨"127.0.0.1", 51820⟩
      rfl rfl rfl rfl rfl (by decide) rfl⟩

/-- C10: the flag default shadows the config file's address. Started without
`-server`, the client hands `NewClient` the default "server.example.com:8443" and,
for every host and config file, dials that; started without `-listen`, the server
listens on ":8443". With any flag value other than the empty string the address is
the flag's value, whatever the file says; only with the flag given as the empty
string is it the file's `server_addr` (for the server the file's `listen_addr`, or
":8443" when that is empty). A client file without `server_addr` is refused all
the same, whatever the flag. -/
theorem flag_default_shadows_config (h : Host) (config : Option String) :
    (∀ c, cmd.client.main h none config = some c → c.serverAddr = "server.example.com:8443")
    ∧ (∀ s, cmd.server.main h none config = some s → s.addr = ":8443")
    ∧ (∀ flag c, flag ≠ some "" → cmd.client.main h flag config = some c →
        c.serverAddr = flagString flag "server.example.com:8443")
    ∧ (∀ flag s, flag ≠ some "" → cmd.server.main h flag config = some s →
        s.addr = flagString flag ":8443")
    ∧ (∀ c, cmd.client.main h (some "") config = some c →
        ∃ data raw, h.ReadFile (flagString config "tunnel-client.yaml") = some data
          ∧ h.UnmarshalClient data = some raw ∧ c.serverAddr = raw.ServerAddr)
    ∧ (∀ s, cmd.server.main h (some "") config = some s →
        ∃ data raw, h.ReadFile (flagString config "tunnel-server.yaml") = some data
          ∧ h.UnmarshalServer data = some raw
          ∧ s.addr = if raw.ListenAddr = "" then ":8443" else raw.ListenAddr)
    ∧ (∀ flag data raw, h.ReadFile (flagString config "tunnel-client.yaml") = some data →
        h.UnmarshalClient data = some raw → raw.ServerAddr = "" →
        cmd.client.main h flag config = none) := by
  have hc : ∀ flag c, flag ≠ some "" → cmd.client.main h flag config = some c →
      c.serverAddr = flagString flag "server.example.com:8443" := by
    intro flag c hf hm
    obtain ⟨cfg, _, hc⟩ := NewClient_serverAddr h _ _ c hm
    have hne : flagString flag "server.example.com:8443" ≠ "" := by
      cases flag with
      | none => decide
      | some v =>
        intro hv
        apply hf
        simp only [flagString, Option.getD_some] at hv
        rw [hv]
    rw [hc, if_pos hne]
  have hs : ∀ flag s, flag ≠ some "" → cmd.server.main h flag config = some s →
      s.addr = flagString flag ":8443" := by
    intro flag s hf hm
    obtain ⟨cfg, _, hc⟩ := NewServer_addr h _ _ s hm
    have hne : flagString flag ":8443" ≠ "" := by
      cases flag with
      | none => decide
      | some v =>
        intro hv
        apply hf
        simp only [flagString, Option.getD_some] at hv
        rw [hv]
    rw [hc, if_pos hne]
  refine ⟨fun c hm => hc none c (by simp) hm, fun s hm => hs none s (by simp) hm, hc, hs,
    ?_, ?_, ?_⟩
  · intro c hm
    obtain ⟨cfg, hl, hc⟩ := NewClient_serverAddr h _ _ c hm
    obtain ⟨data, raw, hr, hu, _, he⟩ := LoadClientConfig_some h _ cfg hl
    refine ⟨data, raw, hr, hu, ?_⟩
    rw [hc, ← he]
    simp [flagString]
  · intro s hm
    obtain ⟨cfg, hl, hc⟩ := NewServer_addr h _ _ s hm
    obtain ⟨data, raw, hr, hu, he⟩ := LoadServerConfig_some h _ cfg hl
    refine ⟨data, raw, hr, hu, ?_⟩
    rw [hc, ← he]
    simp [flagString]
  · intro flag data raw hr hu he
    simp [cmd.client.main, NewClient, LoadClientConfig, hr, hu, he]

/-- C10, instance: a client file naming "vpn.example.org:443" and a server file
without `listen_addr`, started without the address flag and with it empty. -/
theorem flag_default_shadows_config_witness :
    (cmd.client.main sampleHost none none).map Client.serverAddr
      = some "server.example.com:8443"
    ∧ (cmd.server.main sampleHost none none).map Server.addr = some ":8443"
    ∧ (cmd.client.main sampleHost (some "") none).map Client.serverAddr
      = some "vpn.example.org:443"
    ∧ (cmd.server.main sampleHost (some "") none).map Server.addr = some ":8443" :=
  have h := flag_default_shadows_config sampleHost none
  have e1 : cmd.client.main sampleHost none none
      = some ⟨"server.example.com:8443", none, none, ⟨"127.0.0.1", 51820⟩, none⟩ := rfl
  have e2 : cmd.server.main sampleHost none none = some ⟨":8443", "127.0.0.1:51820", none⟩ := rfl
  have e3 : cmd.client.main sampleHost (some "") none
      = some ⟨"vpn.example.org:443", none, none, ⟨"127.0.0.1", 51820⟩, none⟩ := rfl
  have e4 : cmd.server.main sampleHost (some "") none
      = some ⟨":8443", "127.0.0.1:51820", none⟩ := rfl
  ⟨by rw [e1]; exact congrArg some (h.1 _ e1),
   by rw [e2]; exact congrArg some (h.2.1 _ e2),
   by rw [e3]; rfl,
   by rw [e4]; rfl⟩

end Tunnel
